import Mathlib

/-!
Verification of the Document Versioning & Change Detection Engine of the
content-monitor repository.

The repository snapshot ships the frontend (ChangeViewer filter, ProfileForm
validation), the TypeScript data-model declarations (ContentSection, Change,
ExtractedContent, ...) and the design documents; the core engine itself
(Content Normalizer, Version Store, Change Detector, Ingestion Coordinator)
is declared and specified but its implementation is not present in the
snapshot.  Definitions below that embed missing code are marked
`Modelled from the spec:` and follow the specification's words; everything
else is translated directly from the source files.
-/

namespace ContentMonitor

/-! ## Data model (translated from the TypeScript type declarations) -/

/-- ContentSection, translated from the frontend type declarations:
fields id, heading, content, level, position. -/
structure Section where
  id : String
  heading : String
  content : String
  level : Nat
  position : Nat
deriving DecidableEq, Repr

/-- Kinds of change, translated from the `change_type` union
`'added' | 'removed' | 'modified'`. -/
inductive ChangeType where
  | added
  | removed
  | modified
deriving DecidableEq, Repr

/-- Change classification, translated from the `classification` union
`'security' | 'feature' | 'deprecation' | 'bugfix' | 'documentation' |
'configuration' | 'unknown'`. -/
inductive Classification where
  | security
  | feature
  | deprecation
  | bugfix
  | documentation
  | configuration
  | unknown
deriving DecidableEq, Repr

/-- Change record, translated field by field from the `Change` interface of
the frontend type declarations (which agrees with the design document's
`Change` dataclass).  Note that the declared record has no
`old_version_id` / `new_version_id` fields. -/
structure Change where
  id : String
  source_id : String
  change_type : ChangeType
  section_id : String
  old_content : Option String
  new_content : Option String
  detected_at : String
  impact_score : ℚ
  classification : Classification
  confidence_score : ℚ
deriving DecidableEq, Repr

/-- Field names of the `Change` interface exactly as declared in the source
type declarations (lines 58-69 of the types file). -/
def changeFieldNames : List String :=
  ["id", "source_id", "change_type", "section_id", "old_content",
   "new_content", "detected_at", "impact_score", "classification",
   "confidence_score"]

/-- Modelled from the spec: the field names the specification's data-model
section requires of a Change record, including the two version references
`old_version_id` and `new_version_id` demanded by the audit requirement. -/
def specChangeFieldNames : List String :=
  ["id", "source_id", "old_version_id", "new_version_id", "change_type",
   "section_id", "old_content", "new_content", "impact_score",
   "classification", "confidence_score", "detected_at"]

/-- Modelled from the spec: a Version record
`(version_id, source_id, content_hash, sections, extracted_at, metadata)`;
the snapshot declares the analogous `ExtractedContent` shape but the Version
Store that creates Versions is not implemented. -/
structure Version where
  version_id : Nat
  source_id : String
  content_hash : Nat
  sections : List Section
  extracted_at : Nat
  metadata : String
deriving DecidableEq, Repr

/-- Builds a Version record. -/
def mkVersion (vid : Nat) (sid : String) (hs : Nat) (secs : List Section)
    (t : Nat) (meta : String) : Version :=
  { version_id := vid, source_id := sid, content_hash := hs, sections := secs,
    extracted_at := t, metadata := meta }

/-! ## Content Normalizer (Modelled from the spec: the normalizer
implementation is absent from the snapshot).  Raw text is split into lines;
heading lines (leading marker characters) open a new section whose level is
the marker count, text before any heading becomes a level-0 preamble
section, body text is whitespace-collapsed, positions are the zero-based
ordinals after normalization, and the section id is derived
deterministically from the (heading, position) composite as the design
notes require.  All functions are pure, structurally recursive and depend
only on the raw content. -/

/-- Splits a character list into the groups delimited by characters
satisfying the predicate. -/
def splitBy (p : Char → Bool) : List Char → List (List Char)
  | [] => [[]]
  | c :: cs =>
    match splitBy p cs with
    | [] => [[]]
    | g :: gs => if p c then [] :: g :: gs else (c :: g) :: gs

/-- Collapses runs of whitespace to single spaces and trims the ends. -/
def collapseChars (l : List Char) : List Char :=
  List.intercalate [' '] ((splitBy (fun c => c.isWhitespace) l).filter (fun w => w ≠ []))

/-- Whitespace collapsing on strings. -/
def collapseWs (s : String) : String :=
  String.mk (collapseChars s.data)

/-- Number of leading heading-marker characters of a line. -/
def headingLevel (line : List Char) : Nat :=
  (line.takeWhile (fun c => c == '#')).length

/-- Heading text of a heading line: the part after the markers,
whitespace-collapsed. -/
def headingChars (line : List Char) : List Char :=
  collapseChars (line.dropWhile (fun c => c == '#'))

/-- Groups the lines of a document into proto-sections
(heading text, level, collapsed body text).  A heading line opens a new
proto-section; body lines accumulate into the current one; body text before
the first heading opens a level-0 preamble section as soon as a line with
visible content appears. -/
def groupSections (ls : List (List Char)) : List (String × Nat × String) :=
  let step := fun (acc : List (List Char × Nat × List (List Char))) (line : List Char) =>
    if 0 < headingLevel line ∧ headingChars line ≠ [] then
      (headingChars line, min (headingLevel line) 6, []) :: acc
    else
      match acc with
      | [] => if collapseChars line = [] then [] else ([], 0, [line]) :: []
      | (h, lv, body) :: rest => (h, lv, line :: body) :: rest
  ((ls.foldl step []).reverse).map (fun p =>
    (String.mk p.1, p.2.1,
     String.mk (collapseChars (List.intercalate [' '] p.2.2.reverse))))

/-- Deterministic section identifier derived from the (heading, position)
composite identity, as the design notes require for repeated headings.  The
position is encoded injectively as a prefix block of marker characters
terminated by a separator that the block never contains, followed by the
heading text. -/
def mkSectionId (heading : String) (position : Nat) : String :=
  String.mk (List.replicate position 'I' ++ ':' :: heading.data)

/-- Recovers the position component encoded by `mkSectionId`. -/
def posOf (s : String) : Nat :=
  (s.data.takeWhile (fun c => c == 'I')).length

/-- Builds the Section at ordinal `i` from a proto-section. -/
def mkSec (i : Nat) (pr : String × Nat × String) : Section :=
  { id := mkSectionId pr.1 i, heading := pr.1, content := pr.2.2,
    level := pr.2.1, position := i }

/-- Deterministic content hash over one string, threading an accumulator. -/
def strHash (acc : Nat) (s : String) : Nat :=
  s.data.foldl (fun a c => (a * 131 + c.toNat) % 1000000007) acc

/-- Modelled from the spec: deterministic hash over the normalized section
sequence (heading and body concatenation in order), used for duplicate
detection. -/
def contentHash (sections : List Section) : Nat :=
  sections.foldl (fun a s => strHash (strHash a s.heading) s.content) 7

/-- Result shape of normalization: the ordered section sequence plus the
content hash (the pure core of the declared `ExtractedContent` shape). -/
structure NormalizedContent where
  sections : List Section
  hash : Nat
deriving DecidableEq, Repr

/-- The ordered section sequence produced for one raw document. -/
def normSections (raw : String) : List Section :=
  (groupSections (splitBy (fun c => c == '\n') raw.data)).enum.map
    (fun p => mkSec p.1 p.2)

/-- Modelled from the spec: the Content Normalizer.  Given raw content it
produces the ordered section sequence and the content hash; it is a pure
function of the raw content alone. -/
def normalize (raw : String) : NormalizedContent :=
  { sections := normSections raw, hash := contentHash (normSections raw) }

/-! ## Change Detector (Modelled from the spec: the detector implementation
is absent from the snapshot).  Sections are matched by id first, unmatched
sections by a deterministic, symmetric token-overlap similarity above a
fixed threshold; the decision table emits added / removed / modified
changes; impact scoring is monotone in the text delta at fixed type and
level; classification is a keyword scan falling back to `unknown` with low
confidence. -/

/-- Word tokens of a string, deduplicated. -/
def tokens (s : String) : List String :=
  (((splitBy (fun c => c.isWhitespace) s.data).filter (fun w => w ≠ [])).map
    String.mk).dedup

/-- Number of tokens of the first list that also occur in the second. -/
def overlapCount (a b : List String) : Nat :=
  (a.filter (fun x => b.contains x)).length

/-- Deterministic, symmetric similarity test: token-overlap (Dice)
coefficient at least one half. -/
def similar (a b : String) : Bool :=
  decide ((tokens a).length + (tokens b).length ≤ 2 * overlapCount (tokens a) (tokens b))

/-- Token-level edit fraction in [0,1]: one minus the overlap coefficient. -/
def editFraction (a b : String) : ℚ :=
  if (tokens a).length + (tokens b).length = 0 then 0
  else 1 - (2 * overlapCount (tokens a) (tokens b) : ℚ) /
    (((tokens a).length : ℚ) + ((tokens b).length : ℚ))

/-- Clamps a rational to the interval [0,1]. -/
def clamp01 (q : ℚ) : ℚ := max 0 (min 1 q)

/-- Base weight per change type: removals and additions weigh more than
modifications, as the spec requires. -/
def typeWeight : ChangeType → ℚ
  | ChangeType.removed => 9/10
  | ChangeType.added => 17/20
  | ChangeType.modified => 7/10

/-- Section-level weight: top-level sections weigh more than deeply nested
ones. -/
def levelWeight (lvl : Nat) : ℚ := 1 / ((lvl : ℚ) + 1)

/-- Modelled from the spec: impact scoring as a function of change type,
text-delta magnitude and section level, clamped into [0,1]. -/
def impactScore (ct : ChangeType) (delta : ℚ) (lvl : Nat) : ℚ :=
  clamp01 (typeWeight ct * levelWeight lvl * delta)

/-- Keyword rule table for classification, one row per category. -/
def keywordTable : List (Classification × List String) :=
  [(Classification.security,
    ["security", "vulnerability", "cve", "authentication", "encryption"]),
   (Classification.deprecation,
    ["deprecated", "sunset", "discontinued", "retired"]),
   (Classification.bugfix,
    ["fix", "fixed", "bug", "patch", "resolved"]),
   (Classification.feature,
    ["feature", "launch", "launched", "supports", "preview"]),
   (Classification.configuration,
    ["configuration", "config", "setting", "parameter", "default"]),
   (Classification.documentation,
    ["documentation", "docs", "guide", "example", "clarified"])]

/-- Modelled from the spec: keyword-scan classification.  When no category
scores a hit, the result is `unknown` with a low confidence score. -/
def classify (text : String) : Classification × ℚ :=
  let ws := tokens text
  let best := (keywordTable.map
      (fun p => (p.1, (p.2.filter (fun k => ws.contains k)).length))).foldl
    (fun acc p => if acc.2 < p.2 then p else acc) (Classification.unknown, 0)
  if best.2 = 0 then (Classification.unknown, mkRat 1 10)
  else (best.1, min 1 (mkRat (1 + best.2) 4))

/-- Evidence text of a whole section, used for pure additions and
removals: heading and body together. -/
def sectionText (s : Section) : String :=
  if s.content = "" then s.heading
  else if s.heading = "" then s.content
  else s.heading ++ " " ++ s.content

/-- Builds a Change record as the detector emits it. -/
def mkChange (sid : String) (ct : ChangeType) (secId : String)
    (oldC newC : Option String) (impact : ℚ) (cls : Classification × ℚ) : Change :=
  { id := sid ++ ":" ++ secId, source_id := sid, change_type := ct,
    section_id := secId, old_content := oldC, new_content := newC,
    detected_at := "", impact_score := impact, classification := cls.1,
    confidence_score := cls.2 }

/-- Finds a section by id. -/
def findById (ss : List Section) (i : String) : Option Section :=
  ss.find? (fun t => t.id == i)

/-- Old sections with no id match among the new sections. -/
def unmatchedOld (oldS newS : List Section) : List Section :=
  oldS.filter (fun t => (findById newS t.id).isNone)

/-- New sections with no id match among the old sections. -/
def unmatchedNew (oldS newS : List Section) : List Section :=
  newS.filter (fun s => (findById oldS s.id).isNone)

/-- Change emitted for one new section: id match first, then similarity
match, else an addition; a matched pair with identical body emits nothing. -/
def newSectionChange (o nv : Version) (s : Section) : Option Change :=
  match findById o.sections s.id with
  | some t =>
    if t.content = s.content then none
    else some (mkChange nv.source_id ChangeType.modified s.id
      (some t.content) (some s.content)
      (impactScore ChangeType.modified (editFraction t.content s.content) s.level)
      (classify (s.heading ++ " " ++ t.content ++ " " ++ s.content)))
  | none =>
    match (unmatchedOld o.sections nv.sections).find?
        (fun t => similar t.content s.content) with
    | some t =>
      if t.content = s.content then none
      else some (mkChange nv.source_id ChangeType.modified s.id
        (some t.content) (some s.content)
        (impactScore ChangeType.modified (editFraction t.content s.content) s.level)
        (classify (s.heading ++ " " ++ t.content ++ " " ++ s.content)))
    | none => some (mkChange nv.source_id ChangeType.added s.id
        (some "") (some (sectionText s))
        (impactScore ChangeType.added 1 s.level)
        (classify (sectionText s)))

/-- Change emitted for one old section: nothing when it is matched by id or
by similarity, else a removal. -/
def oldSectionChange (o nv : Version) (t : Section) : Option Change :=
  if (findById nv.sections t.id).isSome then none
  else if ((unmatchedNew o.sections nv.sections).find?
      (fun s => similar t.content s.content)).isSome then none
  else some (mkChange nv.source_id ChangeType.removed t.id
    (some (sectionText t)) (some "")
    (impactScore ChangeType.removed 1 t.level)
    (classify (sectionText t)))

/-- Modelled from the spec: `detect_changes(old, new)`.  A missing old
version (first-ever version of a source) emits no changes at all. -/
def detect_changes (old : Option Version) (nv : Version) : List Change :=
  match old with
  | none => []
  | some o =>
    nv.sections.filterMap (newSectionChange o nv) ++
      o.sections.filterMap (oldSectionChange o nv)

/-! ## Version Store and Ingestion Coordinator (Modelled from the spec:
both are absent from the snapshot).  Versions are stored append-only; the
fresh `version_id` is drawn from a monotonic counter that survives clearing
of storage, so identifiers are never reused; `store_version` either
persists the complete version and returns the fresh id, or persists nothing
and signals `storageWriteError`. -/

/-- The error taxonomy of the engine. -/
inductive StorageError where
  | parseError
  | incompleteExtractionError
  | corruptionError
  | notFoundError
  | storageWriteError
deriving DecidableEq, Repr

/-- Durable state: the stored versions, the stored changes, and the
monotonic identifier counter. -/
structure Store where
  versions : List Version
  changes : List Change
  nextId : Nat
deriving DecidableEq, Repr

/-- The empty store at counter zero. -/
def initStore : Store := { versions := [], changes := [], nextId := 0 }

/-- All stored versions of one source, in storage (creation) order. -/
def sourceVersions (st : Store) (sid : String) : List Version :=
  st.versions.filter (fun v => v.source_id == sid)

/-- Modelled from the spec: `get_latest_version` returns the most recently
stored version of a source, or none for a never-ingested source. -/
def get_latest_version (st : Store) (sid : String) : Option Version :=
  (sourceVersions st sid).getLast?

/-- Modelled from the spec: `list_versions`, creation order ascending. -/
def list_versions (st : Store) (sid : String) : List Nat :=
  (sourceVersions st sid).map (fun v => v.version_id)

/-- Modelled from the spec: `get_version`, failing with `notFoundError` on
an unknown identifier. -/
def get_version (st : Store) (vid : Nat) : Except StorageError Version :=
  match st.versions.find? (fun v => v.version_id == vid) with
  | some v => Except.ok v
  | none => Except.error StorageError.notFoundError

/-- Modelled from the spec: atomic `store_version`.  The boolean write
oracle stands for the storage medium accepting the write; when it refuses,
nothing is persisted and `storageWriteError` is signalled. -/
def store_version (writeOk : Bool) (st : Store) (sid : String)
    (secs : List Section) (hs : Nat) (t : Nat) (meta : String) :
    Except StorageError (Store × Nat) :=
  match writeOk with
  | true =>
    Except.ok
      ({ versions := st.versions ++ [mkVersion st.nextId sid hs secs t meta],
         changes := st.changes, nextId := st.nextId + 1 }, st.nextId)
  | false => Except.error StorageError.storageWriteError

/-- Modelled from the spec: clearing storage drops the stored data but the
identifier counter survives, so identifiers are never reused even if
storage is cleared and reseeded. -/
def clearStorage (st : Store) : Store :=
  { versions := [], changes := [], nextId := st.nextId }

/-- Outcome record of one ingestion call. -/
structure IngestionOutcome where
  version_id : Nat
  is_duplicate : Bool
  changes : List Change
deriving DecidableEq, Repr

/-- Stores the new version and runs change detection against the previous
latest version, persisting the resulting changes. -/
def ingestStore (writeOk : Bool) (st : Store) (sid : String)
    (nc : NormalizedContent) (t : Nat) (prev : Option Version) :
    Except StorageError (Store × IngestionOutcome) :=
  match store_version writeOk st sid nc.sections nc.hash t "" with
  | Except.error e => Except.error e
  | Except.ok (st1, vid) =>
    Except.ok
      ({ st1 with changes := st1.changes ++
          detect_changes prev (mkVersion vid sid nc.hash nc.sections t "") },
       { version_id := vid, is_duplicate := false,
         changes := detect_changes prev (mkVersion vid sid nc.hash nc.sections t "") })

/-- Modelled from the spec: the Ingestion Coordinator.  Normalize, compare
the content hash against the latest stored version, report a duplicate
no-op on equality, otherwise store the version and detect changes. -/
def ingest (writeOk : Bool) (st : Store) (sid raw : String) (t : Nat) :
    Except StorageError (Store × IngestionOutcome) :=
  match get_latest_version st sid with
  | some v =>
    if v.content_hash = (normalize raw).hash then
      Except.ok (st, { version_id := v.version_id, is_duplicate := true, changes := [] })
    else ingestStore writeOk st sid (normalize raw) t (some v)
  | none => ingestStore writeOk st sid (normalize raw) t none

/-! ## Operation histories over the Version Store, for the global
uniqueness invariant (including clearing and reseeding of storage). -/

/-- One operation against the store. -/
inductive StoreOp where
  | store (writeOk : Bool) (sid : String) (secs : List Section)
      (hs : Nat) (t : Nat) (meta : String)
  | clear
deriving Repr

/-- Applies one operation, recording every version the store ever accepted
in the history component. -/
def applyOp (p : Store × List Version) (op : StoreOp) : Store × List Version :=
  match op with
  | StoreOp.store writeOk sid secs hs t meta =>
    match store_version writeOk p.1 sid secs hs t meta with
    | Except.ok (st1, _) => (st1, p.2 ++ st1.versions.drop p.1.versions.length)
    | Except.error _ => p
  | StoreOp.clear => (clearStorage p.1, p.2)

/-- Runs a whole operation history from the empty store, returning the
final store and the list of every version ever stored. -/
def runOps (ops : List StoreOp) : Store × List Version :=
  ops.foldl applyOp (initStore, [])

/-- Invariant tying the identifier counter to the history of every version
ever stored. -/
def StoreInv (p : Store × List Version) : Prop :=
  (p.2.map (fun v => v.version_id)).Nodup ∧ ∀ v ∈ p.2, v.version_id < p.1.nextId

/-! ## Frontend: the ChangeViewer filter (translated from the source). -/

/-- Translated from the ChangeViewer component: a change passes the filter
when the selected classification is the all-selection or equals the
change's classification, and the selected impact level is the
all-selection or the change's impact score is not below the threshold.
The all-selection is `none`. -/
def changeMatchesFilter (selCls : Option Classification) (selImpact : Option ℚ)
    (c : Change) : Bool :=
  (match selCls with
   | none => true
   | some k => decide (c.classification = k)) &&
  (match selImpact with
   | none => true
   | some thr => !decide (c.impact_score < thr))

/-- Translated from the ChangeViewer component: `changes.filter(...)`. -/
def filteredChanges (selCls : Option Classification) (selImpact : Option ℚ)
    (changes : List Change) : List Change :=
  changes.filter (changeMatchesFilter selCls selImpact)

/-! ## Frontend: ProfileForm validation (translated from the source). -/

/-- Inclusion rules, translated from the type declarations. -/
structure InclusionRules where
  domains : List String
  url_patterns : List String
  file_types : List String
  content_types : List String
deriving DecidableEq, Repr

/-- Exclusion rules, translated from the type declarations. -/
structure ExclusionRules where
  domains : List String
  url_patterns : List String
  file_types : List String
  keywords : List String
deriving DecidableEq, Repr

/-- The shape of the profile form data, translated from the zod schema
`profileSchema` of the ProfileForm component. -/
structure ProfileFormData where
  name : String
  starting_urls : List String
  inclusion_rules : InclusionRules
  exclusion_rules : ExclusionRules
  scraping_depth : ℚ
  include_downloads : Bool
  track_changes : Bool
  check_frequency : Option String
  generate_digest : Bool
deriving DecidableEq, Repr

/-- Translated from `profileSchema`: name needs length at least 1,
starting_urls needs length at least 1 with every entry passing the URL
validator (modelled as the oracle `urlOk`, standing for the zod `url()`
check), and scraping_depth must lie between 1 and 10 inclusive.  The rule
objects, booleans and the optional frequency string are checked only for
their shape, which the typed record guarantees. -/
def profileSchemaParse (urlOk : String → Bool) (d : ProfileFormData) : Bool :=
  decide (1 ≤ d.name.length) && decide (1 ≤ d.starting_urls.length) &&
  d.starting_urls.all urlOk &&
  decide (1 ≤ d.scraping_depth) && decide (d.scraping_depth ≤ 10)

/-- Translated from the form submission path: `handleSubmit(onSubmit)` with
the zod resolver invokes `onSubmit` with the data exactly when validation
passes; a failing validation rejects the submission. -/
def submitProfile (urlOk : String → Bool) (d : ProfileFormData) :
    Option ProfileFormData :=
  if profileSchemaParse urlOk d then some d else none

/-! ## Concrete inputs used by the witnesses. -/

/-- Concrete old section for the witness scenario. -/
def sectionOldW : Section :=
  { id := mkSectionId "Pricing" 0, heading := "Pricing",
    content := "Free tier available", level := 1, position := 0 }

/-- Concrete new section: same heading and position, changed body. -/
def sectionNewW : Section :=
  { id := mkSectionId "Pricing" 0, heading := "Pricing",
    content := "Free tier available for 12 months", level := 1, position := 0 }

/-- Concrete old version for the witness scenario. -/
def versionOldW : Version :=
  { version_id := 0, source_id := "src", content_hash := 1,
    sections := [sectionOldW], extracted_at := 0, metadata := "" }

/-- Concrete new version for the witness scenario. -/
def versionNewW : Version :=
  { version_id := 1, source_id := "src", content_hash := 2,
    sections := [sectionNewW], extracted_at := 1, metadata := "" }

/-- The modified-section change the detector emits for the witness
scenario. -/
def changeW : Change :=
  mkChange versionNewW.source_id ChangeType.modified sectionNewW.id
    (some sectionOldW.content) (some sectionNewW.content)
    (impactScore ChangeType.modified
      (editFraction sectionOldW.content sectionNewW.content) sectionNewW.level)
    (classify (sectionNewW.heading ++ " " ++ sectionOldW.content ++ " " ++
      sectionNewW.content))

/-- The store reached by ingesting the empty document into the empty store
under source identity `src` at time 0. -/
def dupStoreW : Store :=
  { versions := [mkVersion 0 "src" 7 [] 0 ""],
    changes := [], nextId := 1 }

/-! ## Helper lemmas -/

/-- A string of length zero is the empty string. -/
theorem string_eq_empty_of_length_eq_zero (a : String) (h : a.length = 0) :
    a = "" := by
  cases a with
  | mk data =>
    cases data with
    | nil => rfl
    | cons c cs => simp [String.length] at h

/-- Appending to a non-empty string stays non-empty. -/
theorem append_ne_empty_left (a b : String) (ha : a ≠ "") : a ++ b ≠ "" := by
  intro h
  apply ha
  have hlen := congrArg String.length h
  rw [String.length_append] at hlen
  exact string_eq_empty_of_length_eq_zero a
    (Nat.eq_zero_of_add_eq_zero_right hlen)

/-- The evidence text of a section with a non-empty heading or body is
non-empty. -/
theorem sectionText_ne_empty (s : Section)
    (h : s.heading ≠ "" ∨ s.content ≠ "") : sectionText s ≠ "" := by
  unfold sectionText
  split
  · rcases h with hh | hc
    · exact hh
    · exact absurd (by assumption) hc
  · split
    · intro hc
      exact absurd hc (by assumption)
    · exact append_ne_empty_left _ _ (append_ne_empty_left _ _ (by assumption))

/-- The marker block of the section-id encoding has exactly the encoded
length, whatever follows the separator. -/
theorem takeWhile_replicate_cons (p : Nat) (rest : List Char) :
    ((List.replicate p 'I' ++ ':' :: rest).takeWhile (fun c => c == 'I')).length = p := by
  induction p with
  | zero => simp [List.takeWhile_cons]
  | succ n ih => simp [List.replicate_succ, List.takeWhile_cons, ih]

/-- The position component is recoverable from a section id. -/
theorem posOf_mkSectionId (h : String) (p : Nat) :
    posOf (mkSectionId h p) = p := by
  unfold posOf mkSectionId
  exact takeWhile_replicate_cons p h.data

/-- Every change-type weight is non-negative. -/
theorem typeWeight_nonneg (ct : ChangeType) : 0 ≤ typeWeight ct := by
  cases ct <;> norm_num [typeWeight]

/-- Every level weight is non-negative. -/
theorem levelWeight_nonneg (lvl : Nat) : 0 ≤ levelWeight lvl := by
  unfold levelWeight
  positivity

/-! ## Claims -/

/-- Claim C3: `detect_changes` emits the empty change list when the old
version is absent — the first-ever version of a source produces no
changes, in particular it is not reported as all sections added. -/
theorem detect_changes_first_version_empty (v : Version) :
    detect_changes none v = [] := rfl

/-- Claim C4: normalization is deterministic — identical raw content
always yields identical section boundaries, section text and content hash,
independently of anything but the content itself (the normalizer is a pure
function of the raw content). -/
theorem normalize_deterministic (c1 c2 : String) (h : c1 = c2) :
    (normalize c1).sections = (normalize c2).sections ∧
    (normalize c1).hash = (normalize c2).hash := by
  subst h
  exact ⟨rfl, rfl⟩

/-- Witness for claim C4 at a concrete document. -/
theorem normalize_deterministic_witness :
    (normalize "# Overview\nintro").sections = (normalize "# Overview\nintro").sections ∧
    (normalize "# Overview\nintro").hash = (normalize "# Overview\nintro").hash :=
  normalize_deterministic "# Overview\nintro" "# Overview\nintro" rfl

/-- Claim C6: impact scoring is monotonic in the magnitude of the text
delta — at equal change type and section level, a larger delta never
receives a lower impact score. -/
theorem impactScore_monotone_in_delta (ct : ChangeType) (lvl : Nat)
    (d1 d2 : ℚ) (hd : d1 ≤ d2) :
    impactScore ct d1 lvl ≤ impactScore ct d2 lvl := by
  unfold impactScore clamp01
  have hw : (0 : ℚ) ≤ typeWeight ct * levelWeight lvl :=
    mul_nonneg (typeWeight_nonneg ct) (levelWeight_nonneg lvl)
  have hm : typeWeight ct * levelWeight lvl * d1 ≤
      typeWeight ct * levelWeight lvl * d2 :=
    mul_le_mul_of_nonneg_left hd hw
  exact max_le_max le_rfl (min_le_min le_rfl hm)

/-- Witness for claim C6 at concrete deltas for a modified section at
level 1. -/
theorem impactScore_monotone_in_delta_witness :
    (0 : ℚ) ≤ 1 ∧
    impactScore ChangeType.modified 0 1 ≤ impactScore ChangeType.modified 1 1 :=
  ⟨by decide, impactScore_monotone_in_delta ChangeType.modified 1 0 1 (by decide)⟩

/-- Claim C7: `store_version` is atomic — with the write accepted, exactly
the complete version is appended and the fresh identifier returned is not
the identifier of any previously stored version; with the write refused,
an error is signalled and nothing is persisted. -/
theorem store_version_atomic (st : Store) (sid : String) (secs : List Section)
    (hs t : Nat) (m : String)
    (hids : ∀ v ∈ st.versions, v.version_id < st.nextId) :
    store_version true st sid secs hs t m =
      Except.ok
        ({ versions := st.versions ++ [mkVersion st.nextId sid hs secs t m],
           changes := st.changes, nextId := st.nextId + 1 }, st.nextId) ∧
    st.nextId ∉ st.versions.map (fun v => v.version_id) ∧
    store_version false st sid secs hs t m =
      Except.error StorageError.storageWriteError := by
  refine ⟨rfl, ?_, rfl⟩
  intro hmem
  obtain ⟨v, hv, he⟩ := List.mem_map.mp hmem
  exact absurd (he ▸ hids v hv) (lt_irrefl _)

/-- Witness for claim C7 at the empty store. -/
theorem store_version_atomic_witness :
    store_version true initStore "src" [] 7 0 "" =
      Except.ok
        ({ versions := initStore.versions ++ [mkVersion initStore.nextId "src" 7 [] 0 ""],
           changes := initStore.changes, nextId := initStore.nextId + 1 },
         initStore.nextId) ∧
    initStore.nextId ∉ initStore.versions.map (fun v => v.version_id) ∧
    store_version false initStore "src" [] 7 0 "" =
      Except.error StorageError.storageWriteError :=
  store_version_atomic initStore "src" [] 7 0 "" (by simp [initStore])

/-- Claim C1, counterexample: the `Change` record declared in the source
carries neither of the version-reference fields the claim asserts —
`old_version_id` and `new_version_id` appear in the specification's field
list but not in the declared record's field list. -/
theorem change_record_lacks_version_ids :
    ("old_version_id" ∈ specChangeFieldNames ∧
      "old_version_id" ∉ changeFieldNames) ∧
    ("new_version_id" ∈ specChangeFieldNames ∧
      "new_version_id" ∉ changeFieldNames) := by
  decide

/-- Claim C8: the section sequence of every normalization result — and so
of every stored version, since the coordinator stores exactly the
normalizer's output — has pairwise-distinct section ids and position
fields equal to the zero-based ordinal, hence strictly increasing in
sequence order. -/
theorem normalize_sections_invariant (raw : String) :
    ((normalize raw).sections.map (fun s => s.position)) =
      List.range (normalize raw).sections.length ∧
    ((normalize raw).sections.map (fun s => s.position)).Pairwise (· < ·) ∧
    ((normalize raw).sections.map (fun s => s.id)).Nodup := by
  have hsec : (normalize raw).sections =
      (groupSections (splitBy (fun c => c == '\n') raw.data)).enum.map
        (fun p => mkSec p.1 p.2) := rfl
  have hpos : ((normalize raw).sections.map (fun s => s.position)) =
      List.range (normalize raw).sections.length := by
    rw [hsec, List.map_map]
    have h1 : ((fun s => s.position) ∘
        fun p : Nat × (String × Nat × String) => mkSec p.1 p.2) = Prod.fst := rfl
    rw [h1, List.enum_map_fst, List.length_map, List.enum_length]
  refine ⟨hpos, ?_, ?_⟩
  · rw [hpos]
    exact List.pairwise_lt_range _
  · apply List.Nodup.of_map posOf
    have h2 : (((normalize raw).sections.map (fun s => s.id)).map posOf) =
        ((normalize raw).sections.map (fun s => s.position)) := by
      rw [List.map_map]
      apply List.map_congr_left
      intro s hs
      rw [hsec] at hs
      obtain ⟨p, hp, rfl⟩ := List.mem_map.mp hs
      exact posOf_mkSectionId _ _
    rw [h2, hpos]
    exact List.nodup_range _

/-- Claim C1 (amended): the Change record carries no version-identifier
fields at all (see the counterexample), referencing its provenance only
through `source_id`; what does hold of the detector is the content half of
the evidence requirement — for versions whose sections each have a
non-empty heading or body (as all normalizer outputs do by construction),
every emitted Change has at least one of `old_content` / `new_content`
non-empty. -/
theorem detect_changes_content_evidence (o nv : Version)
    (hOld : ∀ s ∈ o.sections, s.heading ≠ "" ∨ s.content ≠ "")
    (hNew : ∀ s ∈ nv.sections, s.heading ≠ "" ∨ s.content ≠ "")
    (c : Change) (hc : c ∈ detect_changes (some o) nv) :
    c.old_content.getD "" ≠ "" ∨ c.new_content.getD "" ≠ "" := by
  simp only [detect_changes] at hc
  rcases List.mem_append.mp hc with hmem | hmem
  · obtain ⟨s, hs, he⟩ := List.mem_filterMap.mp hmem
    unfold newSectionChange at he
    split at he
    case _ t hfind =>
      split at he
      · exact absurd he (by simp)
      case _ hne =>
        obtain rfl := Option.some.inj he
        by_cases ht : t.content = ""
        · right
          simp only [mkChange, Option.getD_some]
          intro hsc
          exact hne (ht.trans hsc.symm)
        · left
          simp only [mkChange, Option.getD_some]
          exact ht
    case _ hfind =>
      split at he
      case _ t hsim =>
        split at he
        · exact absurd he (by simp)
        case _ hne =>
          obtain rfl := Option.some.inj he
          by_cases ht : t.content = ""
          · right
            simp only [mkChange, Option.getD_some]
            intro hsc
            exact hne (ht.trans hsc.symm)
          · left
            simp only [mkChange, Option.getD_some]
            exact ht
      case _ =>
        obtain rfl := Option.some.inj he
        right
        simp only [mkChange, Option.getD_some]
        exact sectionText_ne_empty s (hNew s hs)
  · obtain ⟨t, ht, he⟩ := List.mem_filterMap.mp hmem
    unfold oldSectionChange at he
    split at he
    · exact absurd he (by simp)
    · split at he
      · exact absurd he (by simp)
      · obtain rfl := Option.some.inj he
        left
        simp only [mkChange, Option.getD_some]
        exact sectionText_ne_empty t (hOld t ht)

/-- Witness for the amended claim C1 at the concrete modified-section
scenario. -/
theorem detect_changes_content_evidence_witness :
    changeW.old_content.getD "" ≠ "" ∨ changeW.new_content.getD "" ≠ "" :=
  detect_changes_content_evidence versionOldW versionNewW (by decide) (by decide)
    changeW (by
      have h : detect_changes (some versionOldW) versionNewW = [changeW] := rfl
      rw [h]
      exact List.mem_singleton_self changeW)

/-- One store operation preserves the identifier invariant. -/
theorem applyOp_inv (p : Store × List Version) (op : StoreOp) (h : StoreInv p) :
    StoreInv (applyOp p op) := by
  obtain ⟨hnd, hlt⟩ := h
  cases op with
  | clear => exact ⟨hnd, fun v hv => hlt v hv⟩
  | store ok sid secs hs t m =>
    cases ok with
    | false => exact ⟨hnd, hlt⟩
    | true =>
      have hdrop : (p.1.versions ++ [mkVersion p.1.nextId sid hs secs t m]).drop
          p.1.versions.length = [mkVersion p.1.nextId sid hs secs t m] :=
        List.drop_left _ _
      constructor
      · show ((p.2 ++ (p.1.versions ++ [mkVersion p.1.nextId sid hs secs t m]).drop
            p.1.versions.length).map (fun v => v.version_id)).Nodup
        rw [hdrop, List.map_append, List.nodup_append]
        refine ⟨hnd, by simp, ?_⟩
        intro x hx
        obtain ⟨w, hw, rfl⟩ := List.mem_map.mp hx
        simp only [mkVersion, List.map_cons, List.map_nil, List.mem_singleton]
        exact Nat.ne_of_lt (hlt w hw)
      · show ∀ v ∈ p.2 ++ (p.1.versions ++ [mkVersion p.1.nextId sid hs secs t m]).drop
            p.1.versions.length, v.version_id < p.1.nextId + 1
        rw [hdrop]
        intro v hv
        rcases List.mem_append.mp hv with h1 | h1
        · exact Nat.lt_succ_of_lt (hlt v h1)
        · rw [List.mem_singleton] at h1
          subst h1
          exact Nat.lt_succ_self _

/-- A whole operation history preserves the identifier invariant. -/
theorem runOps_inv (ops : List StoreOp) :
    ∀ p, StoreInv p → StoreInv (ops.foldl applyOp p) := by
  induction ops with
  | nil => exact fun p h => h
  | cons op rest ih => exact fun p h => ih _ (applyOp_inv p op h)

/-- Claim C5: version-identifier uniqueness is a global invariant — over
any history of store operations (including write failures and clearing of
storage, whose reseeding keeps the counter), the identifiers of all
versions ever stored are pairwise distinct. -/
theorem stored_version_ids_pairwise_distinct (ops : List StoreOp) :
    (((runOps ops).2).map (fun v => v.version_id)).Nodup :=
  (runOps_inv ops (initStore, []) ⟨List.nodup_nil, by simp⟩).1

/-- Ingestion on a never-ingested source goes to the store-and-detect
path. -/
theorem ingest_none (writeOk : Bool) (st : Store) (sid raw : String) (t : Nat)
    (h : get_latest_version st sid = none) :
    ingest writeOk st sid raw t = ingestStore writeOk st sid (normalize raw) t none := by
  unfold ingest
  rw [h]

/-- Ingestion with a stored latest version compares the content hashes. -/
theorem ingest_some (writeOk : Bool) (st : Store) (sid raw : String) (t : Nat)
    (v : Version) (h : get_latest_version st sid = some v) :
    ingest writeOk st sid raw t =
      if v.content_hash = (normalize raw).hash then
        Except.ok (st, { version_id := v.version_id, is_duplicate := true, changes := [] })
      else ingestStore writeOk st sid (normalize raw) t (some v) := by
  unfold ingest
  rw [h]

/-- The accepted-write form of the store-and-detect path. -/
theorem ingestStore_true (st : Store) (sid : String) (nc : NormalizedContent)
    (t : Nat) (prev : Option Version) :
    ingestStore true st sid nc t prev =
      Except.ok
        ({ versions := st.versions ++ [mkVersion st.nextId sid nc.hash nc.sections t ""],
           changes := st.changes ++
             detect_changes prev (mkVersion st.nextId sid nc.hash nc.sections t ""),
           nextId := st.nextId + 1 },
         { version_id := st.nextId, is_duplicate := false,
           changes := detect_changes prev (mkVersion st.nextId sid nc.hash nc.sections t "") }) :=
  rfl

/-- The last element of a filtered concatenation whose appended element
passes the filter. -/
theorem filter_concat_getLast (vs : List Version) (v : Version) (S : String)
    (hv : v.source_id = S) :
    ((vs ++ [v]).filter (fun w => w.source_id == S)).getLast? = some v := by
  rw [List.filter_append]
  have h1 : List.filter (fun w => w.source_id == S) [v] = [v] := by
    simp [List.filter_cons, hv]
  rw [h1, List.getLast?_concat]

/-- After appending a version of a source, that version is the latest for
the source. -/
theorem get_latest_after_store (st : Store) (S : String) (nv : Version)
    (hv : nv.source_id = S) (cs : List Change) (n : Nat) :
    get_latest_version { versions := st.versions ++ [nv], changes := cs, nextId := n } S =
      some nv := by
  simp only [get_latest_version, sourceVersions]
  exact filter_concat_getLast st.versions nv S hv

/-- Claim C2: re-ingesting byte-identical content is a duplicate no-op —
after any successful ingestion, a second ingestion of the same content for
the same source returns `is_duplicate = true` with zero new changes and
leaves the stored state unchanged; when the source had never been ingested
before the first call, exactly one version for it is stored in total. -/
theorem ingest_duplicate_noop (st : Store) (S C : String) (t t' : Nat) (b : Bool)
    (st1 : Store) (out1 : IngestionOutcome)
    (h : ingest true st S C t = Except.ok (st1, out1)) :
    ingest b st1 S C t' =
      Except.ok (st1, { version_id := out1.version_id, is_duplicate := true, changes := [] }) ∧
    (get_latest_version st S = none → list_versions st1 S = [out1.version_id]) := by
  cases hl : get_latest_version st S with
  | none =>
    rw [ingest_none true st S C t hl, ingestStore_true] at h
    injection h with h'
    injection h' with hst hout
    subst hst
    subst hout
    constructor
    · rw [ingest_some b _ S C t' _ (get_latest_after_store st S _ rfl _ _)]
      exact if_pos rfl
    · intro _
      have hemp : st.versions.filter (fun w => w.source_id == S) = [] := by
        have h0 := hl
        unfold get_latest_version sourceVersions at h0
        rwa [List.getLast?_eq_none_iff] at h0
      simp only [list_versions, sourceVersions]
      rw [List.filter_append, hemp]
      simp [mkVersion, List.filter_cons]
  | some v =>
    rw [ingest_some true st S C t v hl] at h
    split at h
    case isTrue heq =>
      injection h with h'
      injection h' with hst hout
      subst hst
      subst hout
      constructor
      · rw [ingest_some b st S C t' v hl]
        exact if_pos heq
      · intro hnone
        exact Option.noConfusion hnone
    case isFalse hne =>
      rw [ingestStore_true] at h
      injection h with h'
      injection h' with hst hout
      subst hst
      subst hout
      constructor
      · rw [ingest_some b _ S C t' _ (get_latest_after_store st S _ rfl _ _)]
        exact if_pos rfl
      · intro hnone
        exact Option.noConfusion hnone

/-- Witness for claim C2: ingesting the empty document for source `src`
into the empty store, then ingesting it again. -/
theorem ingest_duplicate_noop_witness :
    ingest true dupStoreW "src" "" 1 =
      Except.ok (dupStoreW, { version_id := 0, is_duplicate := true, changes := [] }) ∧
    list_versions dupStoreW "src" = [0] := by
  have h := ingest_duplicate_noop initStore "src" "" 0 1 true dupStoreW
    { version_id := 0, is_duplicate := false, changes := [] } (by rfl)
  exact ⟨h.1, h.2 (by rfl)⟩

/-- Characterization of the ChangeViewer filter predicate. -/
theorem changeMatchesFilter_eq_true_iff (selCls : Option Classification)
    (selImpact : Option ℚ) (c : Change) :
    changeMatchesFilter selCls selImpact c = true ↔
      (selCls = none ∨ selCls = some c.classification) ∧
      (selImpact = none ∨ ∃ thr, selImpact = some thr ∧ thr ≤ c.impact_score) := by
  rcases selCls with _ | k
  · rcases selImpact with _ | thr
    · rw [show changeMatchesFilter none none c = true from rfl]
      exact ⟨fun _ => ⟨Or.inl rfl, Or.inl rfl⟩, fun _ => rfl⟩
    · rw [show changeMatchesFilter none (some thr) c =
        !decide (c.impact_score < thr) from rfl]
      constructor
      · intro hb
        rw [Bool.not_eq_true'] at hb
        exact ⟨Or.inl rfl, Or.inr ⟨thr, rfl, not_lt.mp (of_decide_eq_false hb)⟩⟩
      · rintro ⟨_, h2 | ⟨thr1, ht, hle⟩⟩
        · exact Option.noConfusion h2
        · rw [Bool.not_eq_true']
          apply decide_eq_false
          obtain rfl := Option.some.inj ht
          exact not_lt.mpr hle
  · rcases selImpact with _ | thr
    · rw [show changeMatchesFilter (some k) none c =
        (decide (c.classification = k) && true) from rfl]
      constructor
      · intro hb
        rw [Bool.and_true] at hb
        have h1 : c.classification = k := of_decide_eq_true hb
        exact ⟨Or.inr (by rw [h1]), Or.inl rfl⟩
      · rintro ⟨h1 | h1, _⟩
        · exact Option.noConfusion h1
        · rw [Bool.and_true]
          exact decide_eq_true ((Option.some.inj h1).symm)
    · rw [show changeMatchesFilter (some k) (some thr) c =
        (decide (c.classification = k) && !decide (c.impact_score < thr)) from rfl]
      constructor
      · intro hb
        rw [Bool.and_eq_true] at hb
        obtain ⟨hb1, hb2⟩ := hb
        have h1 : c.classification = k := of_decide_eq_true hb1
        rw [Bool.not_eq_true'] at hb2
        exact ⟨Or.inr (by rw [h1]),
          Or.inr ⟨thr, rfl, not_lt.mp (of_decide_eq_false hb2)⟩⟩
      · rintro ⟨h1 | h1, h2 | ⟨thr1, ht, hle⟩⟩
        · exact Option.noConfusion h1
        · exact Option.noConfusion h1
        · exact Option.noConfusion h2
        · rw [Bool.and_eq_true]
          refine ⟨decide_eq_true ((Option.some.inj h1).symm), ?_⟩
          rw [Bool.not_eq_true']
          apply decide_eq_false
          obtain rfl := Option.some.inj ht
          exact not_lt.mpr hle

/-- Claim C9: the ChangeViewer filter is exact and order-preserving — the
displayed list is a sublist of the input (relative order kept), and a
change is displayed exactly when the selected classification is the
all-selection or equals its classification, and the selected impact level
is the all-selection or its impact score reaches the threshold. -/
theorem changeViewer_filter_exact (selCls : Option Classification)
    (selImpact : Option ℚ) (cs : List Change) (c : Change) :
    (filteredChanges selCls selImpact cs).Sublist cs ∧
    (c ∈ filteredChanges selCls selImpact cs ↔
      c ∈ cs ∧ (selCls = none ∨ selCls = some c.classification) ∧
      (selImpact = none ∨ ∃ thr, selImpact = some thr ∧ thr ≤ c.impact_score)) := by
  refine ⟨List.filter_sublist cs, ?_⟩
  rw [filteredChanges, List.mem_filter]
  exact and_congr_right fun _ => changeMatchesFilter_eq_true_iff selCls selImpact c

/-- A string has length at least one exactly when it is non-empty. -/
theorem one_le_length_iff_ne_empty (s : String) : 1 ≤ s.length ↔ s ≠ "" := by
  constructor
  · intro h1 he
    subst he
    exact absurd h1 (by decide)
  · intro hne
    rcases Nat.eq_zero_or_pos s.length with h0 | hp
    · exact absurd (string_eq_empty_of_length_eq_zero s h0) hne
    · exact hp

/-- Claim C10: the profile form accepts a submission exactly when the name
is non-empty, there is at least one starting URL, every starting URL
passes the URL validator, and the scraping depth lies between 1 and 10
inclusive; otherwise the submission is rejected (no data is handed to the
submit callback). -/
theorem profileSchema_accepts_iff (urlOk : String → Bool) (d : ProfileFormData) :
    (submitProfile urlOk d = some d ↔
      (d.name ≠ "" ∧ d.starting_urls ≠ [] ∧ d.starting_urls.all urlOk = true ∧
       1 ≤ d.scraping_depth ∧ d.scraping_depth ≤ 10)) ∧
    (submitProfile urlOk d = some d ∨ submitProfile urlOk d = none) := by
  have hname := one_le_length_iff_ne_empty d.name
  have hurls : (1 ≤ d.starting_urls.length) ↔ d.starting_urls ≠ [] := by
    cases d.starting_urls <;> simp
  constructor
  · unfold submitProfile
    split
    case isTrue hp =>
      simp only [profileSchemaParse, Bool.and_eq_true, decide_eq_true_eq] at hp
      obtain ⟨⟨⟨⟨h1, h2⟩, h3⟩, h4⟩, h5⟩ := hp
      exact ⟨fun _ => ⟨hname.mp h1, hurls.mp h2, h3, h4, h5⟩, fun _ => rfl⟩
    case isFalse hp =>
      constructor
      · intro he
        exact absurd he (by simp)
      · rintro ⟨h1, h2, h3, h4, h5⟩
        exact absurd (by
          simp only [profileSchemaParse, Bool.and_eq_true, decide_eq_true_eq]
          exact ⟨⟨⟨⟨hname.mpr h1, hurls.mpr h2⟩, h3⟩, h4⟩, h5⟩) hp
  · unfold submitProfile
    split
    · exact Or.inl rfl
    · exact Or.inr rfl

end ContentMonitor
